import Mathlib

/-!
Verification of the XN-graph extractor (src/xngraph.py, class XNReader).

The embedding models the ElementTree subset the script uses: an XML element
is a tag (with the namespace spliced in, ElementTree style), an attribute
list and a child list.  `iterTag` is `Element.iter(tag)` (depth-first,
self included), `linkEnds` is `Link.findall(LinkEndpoint)` (direct children
only).  The reader is modelled from the `fromstring` path, where the parsed
root element itself is handed to the constructor; construction either
returns the graph (the `nodes` mapping in insertion order plus the `links`
sequence) or the first error the Python code would raise, as an `Except`.

Python floats are idealized as exact rationals: every frequency literal in
the claims is exactly representable in binary64, and the multiplications by
1000 / 1000000 performed on them are exact, so the idealization coincides
with the float semantics on all values considered here.  All rationals are
produced through `mkRat` on integer arithmetic so that every definition
evaluates inside the kernel.
-/

mutual
/-- XML element: tag (namespace-expanded), attributes, children.  A mutual
inductive is used instead of a nested `List` field so that recursion over
the tree stays structural. -/
inductive Elem where
  | mk (tag : String) (attrib : List (String × String)) (children : ElemList)
inductive ElemList where
  | nil
  | cons (e : Elem) (es : ElemList)
end

def Elem.tag : Elem → String
  | .mk t _ _ => t

def Elem.attrib : Elem → List (String × String)
  | .mk _ a _ => a

def ElemList.toList : ElemList → List Elem
  | .nil => []
  | .cons e es => e :: toList es

def ElemList.ofList : List Elem → ElemList
  | [] => .nil
  | e :: es => .cons e (ofList es)

def Elem.children (e : Elem) : List Elem :=
  match e with
  | .mk _ _ cs => cs.toList

/-- Attribute lookup: `e.attrib[k]` / `k in e.attrib` (first binding wins;
XML forbids duplicate attribute names). -/
def getAttr (e : Elem) (k : String) : Option String :=
  (e.attrib.find? (fun pr => pr.1 == k)).map (fun pr => pr.2)

mutual
def elemDecEq : (a b : Elem) → Decidable (a = b)
  | .mk t1 a1 c1, .mk t2 a2 c2 =>
    match decEq t1 t2, decEq a1 a2, elemListDecEq c1 c2 with
    | isTrue h1, isTrue h2, isTrue h3 => isTrue (by subst h1 h2 h3; rfl)
    | isFalse h1, _, _ => isFalse (by intro h; cases h; exact h1 rfl)
    | _, isFalse h2, _ => isFalse (by intro h; cases h; exact h2 rfl)
    | _, _, isFalse h3 => isFalse (by intro h; cases h; exact h3 rfl)
def elemListDecEq : (a b : ElemList) → Decidable (a = b)
  | .nil, .nil => isTrue rfl
  | .nil, .cons _ _ => isFalse (by intro h; cases h)
  | .cons _ _, .nil => isFalse (by intro h; cases h)
  | .cons e es, .cons f fs =>
    match elemDecEq e f, elemListDecEq es fs with
    | isTrue h1, isTrue h2 => isTrue (by subst h1 h2; rfl)
    | isFalse h1, _ => isFalse (by intro h; cases h; exact h1 rfl)
    | _, isFalse h2 => isFalse (by intro h; cases h; exact h2 rfl)
end

instance : DecidableEq Elem := elemDecEq

instance : DecidableEq ElemList := elemListDecEq

mutual
/-- Embedding of `Element.iter(tag)`: depth-first document order, the element itself
included when its tag matches (xngraph.py uses it at lines 88, 100, 107). -/
def iterTag (tag : String) : Elem → List Elem
  | .mk t a cs => (if t = tag then [Elem.mk t a cs] else []) ++ iterTagList tag cs
def iterTagList (tag : String) : ElemList → List Elem
  | .nil => []
  | .cons e es => iterTag tag e ++ iterTagList tag es
end

/-- XNReader.NS (xngraph.py line 51). -/
def NS : String := "http://www.xmos.com"

/-- Namespace brace prefix used by ElementTree qualified tags. -/
def nsBrace : String := "\x7bhttp://www.xmos.com\x7d"

/-- Qualified tag `'{{{}}}T'.format(XNReader.NS)`. -/
def nsTag (t : String) : String := nsBrace ++ t

/-- Characters matched by the `[0-9\.]+` group of FreqConv's regex. -/
def isNumChar (c : Char) : Bool := c.isDigit || c == '.'

/-- Value of a list of decimal digit characters. -/
def digitsToNat (cs : List Char) : Nat :=
  cs.foldl (fun a c => a * 10 + (c.toNat - 48)) 0

/-- Python `float()` applied to a nonempty string of digits and dots
(the text captured by `[0-9\.]+`): defined iff there is at most one dot
and at least one digit; the value is returned as (numerator, number of
fractional digits), meaning numerator / 10 ^ k. -/
def parseDec (cs : List Char) : Option (Nat × Nat) :=
  if cs.countP (fun c => c == '.') ≤ 1 ∧ cs.any Char.isDigit = true then
    let intPart := cs.takeWhile (fun c => c != '.')
    let fracPart := (cs.dropWhile (fun c => c != '.')).drop 1
    some (digitsToNat intPart * 10 ^ fracPart.length + digitsToNat fracPart,
      fracPart.length)
  else none

/-- Core of XNReader.FreqConv (xngraph.py lines 139-146) on the lowercased
character list: `re.match(r"([0-9\.]+)\s*(.)?(hz)?", s)`, `float(group 1)`,
multiplied by 1e6 / 1e3 when group 2 is `m` / `k`.  `none` models the
AttributeError (regex mismatch) or ValueError (float failure) the Python
code raises, re-architected by the spec as MalformedFrequency. -/
def freqConvL (cs : List Char) : Option ℚ :=
  let num := cs.takeWhile isNumChar
  let rest := cs.dropWhile isNumChar
  if num.isEmpty then none
  else
    match parseDec num with
    | none => none
    | some (n, k) =>
      let restTrim := rest.dropWhile (fun c => c.isWhitespace)
      let mult : Nat :=
        match restTrim with
        | [] => 1
        | c :: _ => if c == 'm' then 1000000 else if c == 'k' then 1000 else 1
      some (mkRat (Int.ofNat (n * mult)) (10 ^ k))

/-- XNReader.FreqConv: `str(value).lower()` then the regex match.
Lowercasing is per character, as Python's `str.lower` is on ASCII. -/
def FreqConv (v : String) : Option ℚ :=
  freqConvL (v.toList.map Char.toLower)

/-- XNReader.linkmap (xngraph.py lines 53-62); `none` is the KeyError the
spec re-architects as UnknownLinkLabel. -/
def linkmap (c : Char) : Option Nat :=
  if c == 'A' then some 2
  else if c == 'B' then some 3
  else if c == 'C' then some 0
  else if c == 'D' then some 1
  else if c == 'E' then some 6
  else if c == 'F' then some 7
  else if c == 'G' then some 4
  else if c == 'H' then some 5
  else none

/-- Lookup `self.linkmap[label[-1]]`: last character of the label looked up in
linkmap; an empty label (IndexError) also fails. -/
def linkNum (label : String) : Option Nat :=
  match label.toList.getLast? with
  | none => none
  | some c => linkmap c

/-- Embedding of `s.replace('clk', '')`: one left-to-right pass removing every
occurrence of `clk`. -/
def stripClkL : List Char → List Char
  | 'c' :: 'l' :: 'k' :: rest => stripClkL rest
  | c :: rest => c :: stripClkL rest
  | [] => []

def stripClk (s : String) : String := String.mk (stripClkL s.toList)

/-- Python `int()` on a string: optional surrounding whitespace, optional
sign, at least one digit. -/
def pyIntL (cs : List Char) : Option Int :=
  let t :=
    ((cs.dropWhile (fun c => c.isWhitespace)).reverse.dropWhile
      (fun c => c.isWhitespace)).reverse
  match t with
  | '-' :: ds =>
    if ds ≠ [] ∧ ds.all Char.isDigit = true then
      some (-(Int.ofNat (digitsToNat ds)))
    else none
  | '+' :: ds =>
    if ds ≠ [] ∧ ds.all Char.isDigit = true then
      some (Int.ofNat (digitsToNat ds))
    else none
  | ds =>
    if ds ≠ [] ∧ ds.all Char.isDigit = true then
      some (Int.ofNat (digitsToNat ds))
    else none

/-- Embedding of `re.search(r'\[(.*?)\]', s)`: first position from which a `[`, a lazy
run of non-`]` (and non-newline, as `.` does not cross lines) and a `]`
match; returns the captured group. -/
def bracketSearch : List Char → Option (List Char)
  | [] => none
  | '[' :: rest =>
    (match rest.dropWhile (fun c => c != ']' && c != '\n') with
     | ']' :: _ => some (rest.takeWhile (fun c => c != ']' && c != '\n'))
     | _ => bracketSearch rest)
  | _ :: rest => bracketSearch rest

/-- The value stored under `attrs['ref']`: the node id string as seeded
(line 93), a FreqConv result if an XML attribute literally named `ref`
exists (the update on lines 94-95 covers the `ref` key too), or the
integer extracted from a Core reference (line 104). -/
inductive RefVal where
  | str (s : String)
  | int (n : Int)
  | freq (q : ℚ)
deriving DecidableEq

/-- The per-node attribute record the reader builds (lines 92-106). -/
structure NodeAttrs where
  Oscillator : ℚ
  SystemFrequency : ℚ
  ReferenceFrequency : ℚ
  ref : RefVal
  RoutingId : Option String := none
  p : Bool := false
deriving DecidableEq

/-- Error kinds: each models the concrete Python exception raised at the
corresponding place, under the names the spec's error taxonomy assigns
(plus the raw ones the spec does not name). -/
inductive XNErr where
  | invalidNamespace
  | missingAttr (k : String)
  | malformedFrequency
  | badCoreRef
  | emptyEncoding
  | unknownLinkLabel
  | missingEndpoints
  | nameErrorDelays
deriving DecidableEq

def oscDefault : ℚ := mkRat 20000000 1

def sysDefault : ℚ := mkRat 400000000 1

def referenceDefault : ℚ := mkRat 100000000 1

/-- One frequency attribute: the seeded default, overridden through
FreqConv when declared (lines 92-95). -/
def freqOf (e : Elem) (k : String) (dflt : ℚ) : Except XNErr ℚ :=
  match getAttr e k with
  | none => Except.ok dflt
  | some v =>
    match FreqConv v with
    | none => Except.error XNErr.malformedFrequency
    | some q => Except.ok q

/-- Seeded `attrs['ref']`, including the FreqConv override applied when an
attribute literally named `ref` is declared. -/
def refSeed (e : Elem) (i : String) : Except XNErr RefVal :=
  match getAttr e "ref" with
  | none => Except.ok (RefVal.str i)
  | some v =>
    match FreqConv v with
    | none => Except.error XNErr.malformedFrequency
    | some q => Except.ok (RefVal.freq q)

/-- Fallback `core.attrib.get('Reference', 'tile[..]'.format(Id))` (lines 102-103). -/
def coreRefString (i : String) (c : Elem) : String :=
  match getAttr c "Reference" with
  | some r => r
  | none => "tile[" ++ i ++ "]"

/-- Bracket extraction plus `int()` (lines 101-104). -/
def bracketInt (r : String) : Option Int :=
  match bracketSearch r.toList with
  | none => none
  | some inner => pyIntL inner

/-- The Core loop (lines 100-105): only the first Core descendant is
consulted (the `break`); with none, the seeded value stands. -/
def nodeRef (i : String) (r0 : RefVal) (e : Elem) : Except XNErr RefVal :=
  match (iterTag (nsTag "Core") e).head? with
  | none => Except.ok r0
  | some c =>
    match bracketInt (coreRefString i c) with
    | none => Except.error XNErr.badCoreRef
    | some k => Except.ok (RefVal.int k)

/-- Test `Node.attrib['Type'][:7] == 'periph:'` (line 98). -/
def typeIsPeriph (t : String) : Bool := t.toList.take 7 == "periph:".toList

/-- One iteration of the Node loop (lines 88-106): `ok none` when the
element is filtered out (id ignored, or declared type exactly `device:`),
`ok (some (id, attrs))` when a node is inserted. -/
def processNode (ign : List String) (e : Elem) :
    Except XNErr (Option (String × NodeAttrs)) :=
  match getAttr e "Id" with
  | none => Except.error (XNErr.missingAttr "Id")
  | some i =>
    if ign.contains i then Except.ok none
    else if getAttr e "Type" = some "device:" then Except.ok none
    else
      match freqOf e "Oscillator" oscDefault with
      | Except.error er => Except.error er
      | Except.ok osc =>
        match freqOf e "SystemFrequency" sysDefault with
        | Except.error er => Except.error er
        | Except.ok sys =>
          match freqOf e "ReferenceFrequency" referenceDefault with
          | Except.error er => Except.error er
          | Except.ok rfq =>
            match refSeed e i with
            | Except.error er => Except.error er
            | Except.ok r0 =>
              match nodeRef i r0 e with
              | Except.error er => Except.error er
              | Except.ok rv =>
                Except.ok (some (i,
                  { Oscillator := osc, SystemFrequency := sys,
                    ReferenceFrequency := rfq, ref := rv,
                    RoutingId := getAttr e "RoutingId",
                    p := match getAttr e "Type" with
                         | some t => typeIsPeriph t
                         | none => false }))

/-- The whole Node loop; the association list records the dict insertions
`self.nodes[Id] = attrs` in document order. -/
def processNodes (ign : List String) :
    List Elem → Except XNErr (List (String × NodeAttrs))
  | [] => Except.ok []
  | e :: es =>
    match processNode ign e with
    | Except.error er => Except.error er
    | Except.ok none => processNodes ign es
    | Except.ok (some pr) =>
      match processNodes ign es with
      | Except.error er => Except.error er
      | Except.ok rest => Except.ok (pr :: rest)

/-- One entry of `self.links` (lines 126-137). -/
structure Edge where
  src : String
  dst : String
  num : Nat
  enc : Char
  del : String
deriving DecidableEq

/-- Test `Link.attrib['Flags'] in ["SOD", "XSCOPE"]` (lines 108-109). -/
def linkFlagged (l : Elem) : Bool :=
  match getAttr l "Flags" with
  | some f => f == "SOD" || f == "XSCOPE"
  | none => false

/-- Encoding resolution (lines 113-116): first character of the attribute,
or the literal `'2'`; an empty attribute is the IndexError of `[0]`. -/
def encodingOf (l : Elem) : Except XNErr Char :=
  match getAttr l "Encoding" with
  | none => Except.ok '2'
  | some s =>
    match s.toList with
    | [] => Except.error XNErr.emptyEncoding
    | c :: _ => Except.ok c

/-- Update of the local variable `delays` (lines 117-118): assigned only
when the current Link declares `Delays`; otherwise the value carried over
from earlier iterations survives (`none` = still unassigned). -/
def linkDelays (st : Option String) (l : Elem) : Option String :=
  match getAttr l "Delays" with
  | some d => some (stripClk d)
  | none => st

/-- Embedding of `Link.findall(LinkEndpoint)`: direct children only (line 119). -/
def linkEnds (l : Elem) : List Elem :=
  l.children.filter (fun c => c.tag == nsTag "LinkEndpoint")

/-- NodeId of every endpoint, as evaluated by the `any(map(...))` on line
120 (all endpoints are forced, so a missing NodeId anywhere raises). -/
def endIds : List Elem → Option (List String)
  | [] => some []
  | e :: es =>
    match getAttr e "NodeId", endIds es with
    | some i, some is => some (i :: is)
    | _, _ => none

/-- Per-endpoint delay (lines 122-125 / 130-133): the endpoint's own
`Delays` suffix-stripped, else the current `delays` variable; reading the
variable while still unassigned is the NameError. -/
def resolveDelay (st : Option String) (e : Elem) : Except XNErr String :=
  match getAttr e "Delays" with
  | some d => Except.ok (stripClk d)
  | none =>
    match st with
    | some d => Except.ok d
    | none => Except.error XNErr.nameErrorDelays

/-- Lookup `self.linkmap[Ends[i].attrib['Link'][-1]]` (lines 128 / 136). -/
def edgeNum (e : Elem) : Except XNErr Nat :=
  match getAttr e "Link" with
  | none => Except.error (XNErr.missingAttr "Link")
  | some lb =>
    match linkNum lb with
    | none => Except.error XNErr.unknownLinkLabel
    | some n => Except.ok n

/-- One iteration of the Link loop (lines 107-137), returning the edges it
appends and the value of the `delays` variable afterwards.  The evaluation
order follows the source: Flags skip, direction skip, encoding, `delays`
update, findall, ignored-endpoint skip, endpoint 0 delay, the first append
(which forces endpoint 1), endpoint 1 delay, the second append. -/
def stepLink (ign : List String) (st : Option String) (l : Elem) :
    Except XNErr (List Edge × Option String) :=
  if linkFlagged l then Except.ok ([], st)
  else if (getAttr l "direction").isSome then Except.ok ([], st)
  else
    match encodingOf l with
    | Except.error er => Except.error er
    | Except.ok enc =>
      match endIds (linkEnds l) with
      | none => Except.error (XNErr.missingAttr "NodeId")
      | some ids =>
        if ids.any (fun i => ign.contains i) then Except.ok ([], linkDelays st l)
        else
          match (linkEnds l)[0]? with
          | none => Except.error XNErr.missingEndpoints
          | some e0 =>
            match resolveDelay (linkDelays st l) e0 with
            | Except.error er => Except.error er
            | Except.ok d0 =>
              match (linkEnds l)[1]? with
              | none => Except.error XNErr.missingEndpoints
              | some e1 =>
                match getAttr e0 "NodeId", getAttr e1 "NodeId" with
                | some i0, some i1 =>
                  match edgeNum e0 with
                  | Except.error er => Except.error er
                  | Except.ok n0 =>
                    match resolveDelay (linkDelays st l) e1 with
                    | Except.error er => Except.error er
                    | Except.ok d1 =>
                      match edgeNum e1 with
                      | Except.error er => Except.error er
                      | Except.ok n1 =>
                        Except.ok
                          ([⟨i0, i1, n0, enc, d0⟩, ⟨i1, i0, n1, enc, d1⟩],
                            linkDelays st l)
                | _, _ => Except.error (XNErr.missingAttr "NodeId")

/-- The whole Link loop, threading the `delays` variable (initially
unassigned) through the iterations. -/
def processLinks (ign : List String) :
    List Elem → Option String → Except XNErr (List Edge)
  | [], _ => Except.ok []
  | l :: ls, st =>
    match stepLink ign st l with
    | Except.error er => Except.error er
    | Except.ok (es, st2) =>
      match processLinks ign ls st2 with
      | Except.error er => Except.error er
      | Except.ok rest => Except.ok (es ++ rest)

/-- The topology graph: `self.nodes` (insertion sequence of the dict) and
`self.links`. -/
structure Graph where
  nodes : List (String × NodeAttrs)
  links : List Edge
deriving DecidableEq

/-- XNReader.__init__ from the parsed root element on: namespace check
(lines 85-87), Node loop, Link loop. -/
def build (ign : List String) (root : Elem) : Except XNErr Graph :=
  if root.tag = nsTag "Network" then
    match processNodes ign (iterTag (nsTag "Node") root) with
    | Except.error er => Except.error er
    | Except.ok ns =>
      match processLinks ign (iterTag (nsTag "Link") root) none with
      | Except.error er => Except.error er
      | Except.ok es => Except.ok ⟨ns, es⟩
  else Except.error XNErr.invalidNamespace

def nodeKeys (g : Graph) : List String := g.nodes.map Prod.fst

/-- Claim C1's invariant as a decidable check. -/
def edgeEndpointsPresent (g : Graph) : Bool :=
  g.links.all (fun ed =>
    (nodeKeys g).contains ed.src && (nodeKeys g).contains ed.dst)

/-- Claim C9's invariant (positivity) as a decidable check. -/
def freqsPositive (g : Graph) : Bool :=
  g.nodes.all (fun pr =>
    decide (mkRat 0 1 < pr.2.Oscillator) &&
    decide (mkRat 0 1 < pr.2.SystemFrequency) &&
    decide (mkRat 0 1 < pr.2.ReferenceFrequency))

instance {ε α : Type} [DecidableEq ε] [DecidableEq α] : DecidableEq (Except ε α) := fun a b =>
  match a, b with
  | .ok x, .ok y =>
    match decEq x y with
    | isTrue h => isTrue (by rw [h])
    | isFalse h => isFalse (by intro hc; cases hc; exact h rfl)
  | .error x, .error y =>
    match decEq x y with
    | isTrue h => isTrue (by rw [h])
    | isFalse h => isFalse (by intro hc; cases hc; exact h rfl)
  | .ok _, .error _ => isFalse (by intro hc; cases hc)
  | .error _, .ok _ => isFalse (by intro hc; cases hc)

/-- Convenience constructor for concrete documents: tags are written
unqualified and expanded with the XN namespace, as ElementTree does when
parsing a file whose root declares `xmlns="http://www.xmos.com"`. -/
def el (tag : String) (attrs : List (String × String)) (cs : List Elem) : Elem :=
  Elem.mk (nsTag tag) attrs (ElemList.ofList cs)

/-- Shorthand for a LinkEndpoint child. -/
def ep (i lb : String) : Elem := el "LinkEndpoint" [("NodeId", i), ("Link", lb)] []

/-- Document with a compute node, a `device:` node and a Link between the
two. -/
def exDoc1 : Elem := el "Network" []
  [el "Node" [("Id", "0")] [],
   el "Node" [("Id", "d"), ("Type", "device:")] [],
   el "Link" [("Delays", "1clk")] [ep "0" "A", ep "d" "B"]]

/-- First Link declares Delays, second Link and its endpoints do not. -/
def exDoc2 : Elem := el "Network" []
  [el "Link" [("Delays", "7clk")] [ep "n0" "A", ep "n1" "B"],
   el "Link" [] [ep "n2" "C", ep "n3" "D"]]

/-- A Link with no Delays anywhere, processed with no earlier Link. -/
def exLinkNoDelays : Elem := el "Link" [] [ep "n2" "C", ep "n3" "D"]

/-- A Link with three LinkEndpoint children. -/
def exLink3 : Elem :=
  el "Link" [("Delays", "2clk")] [ep "a" "A", ep "b" "B", ep "c" "C"]

/-- A Link with a single LinkEndpoint child. -/
def exLink1e : Elem := el "Link" [("Delays", "4clk")] [ep "9" "A"]

/-- The spec's worked example: endpoints (X, label A) and (Y, label B),
link-level Delays `5clk`, no per-endpoint override. -/
def exLink5 : Elem := el "Link" [("Delays", "5clk")] [ep "X" "A", ep "Y" "B"]

/-- Document with one Node of id `5`, no Core children. -/
def exDoc5b : Elem := el "Network" [] [el "Node" [("Id", "5")] []]

/-- A Node element with a Core child whose Reference is `tile[2]`. -/
def exNodeCore : Elem :=
  el "Node" [("Id", "7")] [el "Core" [("Reference", "tile[2]")] []]

/-- Document with one Node declaring `Oscillator="0"`. -/
def exDoc9 : Elem := el "Network" []
  [el "Node" [("Id", "1"), ("Oscillator", "0")] []]

/-- Document with one Node declaring no Type attribute. -/
def exDoc10 : Elem := el "Network" [] [el "Node" [("Id", "n")] []]

/-- A root element carrying no namespace at all. -/
def exRootNoNS : Elem := Elem.mk "Network" [] ElemList.nil

def defaultAttrs (i : String) : NodeAttrs :=
  { Oscillator := oscDefault, SystemFrequency := sysDefault,
    ReferenceFrequency := referenceDefault, ref := RefVal.str i }

/-! ### Helper lemmas -/

lemma takeWhile_append_cons (p : Char → Bool) (xs : List Char) (y : Char)
    (ys : List Char) (hall : xs.all p = true) (hy : p y = false) :
    (xs ++ y :: ys).takeWhile p = xs ∧ (xs ++ y :: ys).dropWhile p = y :: ys := by
  induction xs with
  | nil =>
    constructor
    · simp [List.takeWhile_cons, hy]
    · simp [List.dropWhile_cons, hy]
  | cons x xs ih =>
    simp only [List.all_cons, Bool.and_eq_true] at hall
    obtain ⟨hx, hxs⟩ := hall
    obtain ⟨h1, h2⟩ := ih hxs
    constructor
    · simp [List.takeWhile_cons, hx, h1]
    · simp [List.dropWhile_cons, hx, h2]

/-! ### Claim theorems -/

/-- Claim C2 (code bug evaluation): the `delays` local leaks across Link
iterations.  In `exDoc2` the second Link declares no `Delays` and neither
of its endpoints does, yet both of its edges carry the delay `7` stripped
from the first Link's `Delays="7clk"`; and processing that same second
Link with no earlier Link at all raises the NameError of reading `delays`
before assignment.  The claim says the delay would be undefined/absent and
never depend on another Link element. -/
theorem C2_delay_leak :
    build [] exDoc2 = Except.ok
      ⟨[],
       [⟨"n0", "n1", 2, '2', "7"⟩, ⟨"n1", "n0", 3, '2', "7"⟩,
        ⟨"n2", "n3", 0, '2', "7"⟩, ⟨"n3", "n2", 1, '2', "7"⟩]⟩ ∧
    processLinks [] [exLinkNoDelays] none = Except.error XNErr.nameErrorDelays :=
  ⟨by decide, by decide⟩

/-- Claim C8: whenever the root element's tag does not live in the fixed
`http://www.xmos.com` namespace (its tag is not `{namespace}anything`),
construction fails with InvalidNamespace; no graph is produced and no
other error is raised first (the namespace test at lines 85-87 precedes
both extraction loops). -/
theorem C8_invalid_namespace (ign : List String) (root : Elem)
    (h : ∀ loc : String, root.tag ≠ nsBrace ++ loc) :
    build ign root = Except.error XNErr.invalidNamespace := by
  unfold build
  rw [if_neg (show ¬root.tag = nsTag "Network" from h "Network")]

/-- Witness for C8 at a root element carrying no namespace. -/
theorem C8_invalid_namespace_witness :
    build [] exRootNoNS = Except.error XNErr.invalidNamespace := by
  refine C8_invalid_namespace [] exRootNoNS (fun loc hcontra => ?_)
  have hlen := congrArg String.length hcontra
  rw [String.length_append] at hlen
  have h1 : (Elem.tag exRootNoNS).length = 7 := rfl
  have h2 : nsBrace.length = 21 := rfl
  rw [h1, h2] at hlen
  omega

/-- Claim C7: the Link-Identifier Resolver keys on the label's final
character (first conjunct block and third conjunct) with fixed channel
indices A:2, B:3, C:0, D:1, E:6, F:7, G:4, H:5, and fails (`none`, the
KeyError the spec names UnknownLinkLabel) on every character outside
A-H (second conjunct). -/
theorem C7_link_identifier :
    (linkmap 'A' = some 2 ∧ linkmap 'B' = some 3 ∧ linkmap 'C' = some 0 ∧
     linkmap 'D' = some 1 ∧ linkmap 'E' = some 6 ∧ linkmap 'F' = some 7 ∧
     linkmap 'G' = some 4 ∧ linkmap 'H' = some 5) ∧
    (∀ c : Char, c ≠ 'A' → c ≠ 'B' → c ≠ 'C' → c ≠ 'D' → c ≠ 'E' →
      c ≠ 'F' → c ≠ 'G' → c ≠ 'H' → linkmap c = none) ∧
    (∀ (s : String) (c : Char), s.toList.getLast? = some c →
      linkNum s = linkmap c) := by
  refine ⟨by decide, ?_, ?_⟩
  · intro c h1 h2 h3 h4 h5 h6 h7 h8
    unfold linkmap
    rw [if_neg (fun hb => h1 (eq_of_beq hb)), if_neg (fun hb => h2 (eq_of_beq hb)),
      if_neg (fun hb => h3 (eq_of_beq hb)), if_neg (fun hb => h4 (eq_of_beq hb)),
      if_neg (fun hb => h5 (eq_of_beq hb)), if_neg (fun hb => h6 (eq_of_beq hb)),
      if_neg (fun hb => h7 (eq_of_beq hb)), if_neg (fun hb => h8 (eq_of_beq hb))]
  · intro s c h
    unfold linkNum
    rw [h]

/-- Witness for C7: a multi-character label resolves through its final
character, and a character outside A-H fails. -/
theorem C7_link_identifier_witness :
    linkNum "XB" = some 3 ∧ linkmap 'z' = none := by
  constructor
  · rw [C7_link_identifier.2.2 "XB" 'B' (by decide)]
    exact C7_link_identifier.1.2.1
  · exact C7_link_identifier.2.1 'z' (by decide) (by decide) (by decide)
      (by decide) (by decide) (by decide) (by decide) (by decide)

/-- Claim C6: the Frequency Normalizer returns 1e8 (= 100000000) on
`100MHz`, `100000000`, `100mhz`, `100 M`, returns 5e4 (= 50000) on `50k`
and `50KHz`, and a suffix character other than k/K/m/M (not itself part of
the number and not whitespace) applies no multiplier: the result is
exactly the parsed decimal value n / 10^k, whatever follows the suffix
character. -/
theorem C6_freq_normalizer :
    (FreqConv "100MHz" = some (mkRat 100000000 1) ∧
     FreqConv "100000000" = some (mkRat 100000000 1) ∧
     FreqConv "100mhz" = some (mkRat 100000000 1) ∧
     FreqConv "100 M" = some (mkRat 100000000 1) ∧
     FreqConv "50k" = some (mkRat 50000 1) ∧
     FreqConv "50KHz" = some (mkRat 50000 1)) ∧
    (∀ (num rest : List Char) (c : Char) (n k : Nat),
      num ≠ [] → num.all isNumChar = true → num.map Char.toLower = num →
      parseDec num = some (n, k) →
      isNumChar c.toLower = false → c.toLower.isWhitespace = false →
      c.toLower ≠ 'k' → c.toLower ≠ 'm' →
      FreqConv (String.mk (num ++ c :: rest)) =
        some (mkRat (Int.ofNat n) (10 ^ k))) := by
  refine ⟨by decide, ?_⟩
  intro num rest c n k hne hall hmap hparse hnum hws hk hm
  have hdata : (String.mk (num ++ c :: rest)).toList = num ++ c :: rest := rfl
  unfold FreqConv
  rw [hdata, List.map_append, List.map_cons, hmap]
  obtain ⟨htake, hdrop⟩ :=
    takeWhile_append_cons isNumChar num c.toLower (rest.map Char.toLower) hall hnum
  have hempty : num.isEmpty = false := by
    cases num with
    | nil => exact absurd rfl hne
    | cons _ _ => rfl
  have hdrop2 : (c.toLower :: rest.map Char.toLower).dropWhile
      (fun ch => ch.isWhitespace) = c.toLower :: rest.map Char.toLower :=
    List.dropWhile_cons_of_neg (by simp [hws])
  simp only [freqConvL, htake, hdrop, hempty, Bool.false_eq_true, if_false,
    hparse, hdrop2]
  rw [if_neg (fun hb => hm (eq_of_beq hb)), if_neg (fun hb => hk (eq_of_beq hb))]
  rw [Nat.mul_one]

/-- Witness for C6's general conjunct: suffix `G` applies no multiplier,
so `100GHz` parses as exactly 100. -/
theorem C6_freq_normalizer_witness :
    FreqConv (String.mk (['1', '0', '0'] ++ 'G' :: ['H', 'z'])) =
      some (mkRat (Int.ofNat 100) (10 ^ 0)) :=
  C6_freq_normalizer.2 ['1', '0', '0'] ['H', 'z'] 'G' 100 0 (by decide)
    (by decide) (by decide) (by decide) (by decide) (by decide) (by decide)
    (by decide)

/-- Claim C3: a Link that survives the Flags/direction/exclusion filters
materializes exactly two Edges, in order endpoint 0 to endpoint 1 then
endpoint 1 to endpoint 0, each carrying the channel index resolved from
that direction's source endpoint label and that endpoint's resolved
delay, both sharing the link's encoding (the loop body at lines 119-137;
`processLinks` appends these two edges, in this order, to the edge
sequence). -/
theorem C3_two_edges (ign : List String) (st st2 : Option String)
    (l e0 e1 : Elem) (i0 i1 lb0 lb1 : String) (n0 n1 : Nat) (enc : Char)
    (d0 d1 : String)
    (hflag : linkFlagged l = false)
    (hdir : getAttr l "direction" = none)
    (henc : encodingOf l = Except.ok enc)
    (hends : linkEnds l = [e0, e1])
    (hi0 : getAttr e0 "NodeId" = some i0)
    (hi1 : getAttr e1 "NodeId" = some i1)
    (hign0 : ign.contains i0 = false)
    (hign1 : ign.contains i1 = false)
    (hst2 : linkDelays st l = st2)
    (hd0 : resolveDelay st2 e0 = Except.ok d0)
    (hd1 : resolveDelay st2 e1 = Except.ok d1)
    (hl0 : getAttr e0 "Link" = some lb0)
    (hn0 : linkNum lb0 = some n0)
    (hl1 : getAttr e1 "Link" = some lb1)
    (hn1 : linkNum lb1 = some n1) :
    stepLink ign st l =
      Except.ok ([⟨i0, i1, n0, enc, d0⟩, ⟨i1, i0, n1, enc, d1⟩], st2) := by
  subst hst2
  simp only [stepLink, hflag, Bool.false_eq_true, if_false, hdir,
    Option.isSome_none, henc, hends, endIds, hi0, hi1, List.any_cons,
    List.any_nil, hign0, hign1, Bool.or_self, Bool.or_false,
    List.getElem?_cons_zero, List.getElem?_cons_succ, hd0, hd1, edgeNum,
    hl0, hn0, hl1, hn1]

/-- Witness for C3 at the spec's worked example: link-level Delays `5clk`,
labels A and B give channels 2 and 3 and both edges carry delay `5` and
encoding `2`. -/
theorem C3_two_edges_witness :
    stepLink [] none exLink5 =
      Except.ok ([⟨"X", "Y", 2, '2', "5"⟩, ⟨"Y", "X", 3, '2', "5"⟩], some "5") :=
  C3_two_edges [] none (some "5") exLink5 (ep "X" "A") (ep "Y" "B") "X" "Y"
    "A" "B" 2 3 '2' "5" "5" (by decide) (by decide) (by decide) (by decide)
    (by decide) (by decide) (by decide) (by decide) (by decide) (by decide)
    (by decide) (by decide) (by decide) (by decide) (by decide)

lemma endIds_mem (es : List Elem) (ids : List String)
    (h : endIds es = some ids) :
    ∀ e ∈ es, ∀ i, getAttr e "NodeId" = some i → i ∈ ids := by
  induction es generalizing ids with
  | nil => intro e he; cases he
  | cons f fs ih =>
    intro e he i hi
    unfold endIds at h
    split at h
    · rename_i j js hf hfs
      injection h with h2
      subst h2
      cases he with
      | head =>
        rw [hf] at hi
        injection hi with hi2
        subst hi2
        exact List.mem_cons_self _ _
      | tail _ hmem =>
        exact List.mem_cons_of_mem _ (ih js hfs e hmem i hi)
    · exact Option.noConfusion h

lemma stepLink_not_ignored {ign : List String} {st st2 : Option String}
    {l : Elem} {es : List Edge}
    (h : stepLink ign st l = Except.ok (es, st2)) :
    ∀ ed ∈ es, ign.contains ed.src = false ∧ ign.contains ed.dst = false := by
  intro ed hm
  unfold stepLink at h
  split at h
  · injection h with h'
    injection h' with ha hb
    subst ha
    cases hm
  · split at h
    · injection h with h'
      injection h' with ha hb
      subst ha
      cases hm
    · split at h
      · exact Except.noConfusion h
      · split at h
        · exact Except.noConfusion h
        · rename_i enc hencs ids hids
          split at h
          · injection h with h'
            injection h' with ha hb
            subst ha
            cases hm
          · rename_i hany
            rw [Bool.not_eq_true] at hany
            split at h
            · exact Except.noConfusion h
            · rename_i e0 hf0
              split at h
              · exact Except.noConfusion h
              · split at h
                · exact Except.noConfusion h
                · rename_i e1 hf1
                  split at h
                  · rename_i i0 i1 hni0 hni1
                    split at h
                    · exact Except.noConfusion h
                    · split at h
                      · exact Except.noConfusion h
                      · split at h
                        · exact Except.noConfusion h
                        · injection h with h'
                          injection h' with ha hb
                          subst ha
                          have hmem0 : i0 ∈ ids :=
                            endIds_mem _ ids hids e0 (List.getElem?_mem hf0)
                              i0 hni0
                          have hmem1 : i1 ∈ ids :=
                            endIds_mem _ ids hids e1 (List.getElem?_mem hf1)
                              i1 hni1
                          have hc0 : ign.contains i0 = false := by
                            have := List.any_eq_false.mp hany i0 hmem0
                            rwa [Bool.not_eq_true] at this
                          have hc1 : ign.contains i1 = false := by
                            have := List.any_eq_false.mp hany i1 hmem1
                            rwa [Bool.not_eq_true] at this
                          cases hm with
                          | head => exact ⟨hc0, hc1⟩
                          | tail _ hm2 =>
                            cases hm2 with
                            | head => exact ⟨hc1, hc0⟩
                            | tail _ hm3 => cases hm3
                  · exact Except.noConfusion h

lemma processLinks_not_ignored (ign : List String) :
    ∀ (ls : List Elem) (st : Option String) (es : List Edge),
      processLinks ign ls st = Except.ok es →
      ∀ ed ∈ es, ign.contains ed.src = false ∧ ign.contains ed.dst = false := by
  intro ls
  induction ls with
  | nil =>
    intro st es h ed hm
    unfold processLinks at h
    injection h with h'
    subst h'
    cases hm
  | cons l ls ih =>
    intro st es h ed hm
    unfold processLinks at h
    split at h
    · exact Except.noConfusion h
    · rename_i pr heq
      split at h
      · exact Except.noConfusion h
      · rename_i rest heq2
        injection h with h'
        subst h'
        rcases List.mem_append.mp hm with hm1 | hm2
        · exact stepLink_not_ignored heq ed hm1
        · exact ih _ rest heq2 ed hm2

/-- Claim C1 (amended): in every successfully built graph, no Edge
endpoint is a node-id from the exclusion set; but an Edge endpoint need
not be a key of the node mapping, because the Link loop only checks the
exclusion set and not the `device:` type filter (see the
counterexample). -/
theorem C1_amended (ign : List String) (root : Elem) (g : Graph)
    (h : build ign root = Except.ok g) :
    ∀ ed ∈ g.links, ign.contains ed.src = false ∧
      ign.contains ed.dst = false := by
  intro ed hm
  unfold build at h
  split at h
  · split at h
    · exact Except.noConfusion h
    · split at h
      · exact Except.noConfusion h
      · rename_i es heq2
        injection h with h'
        subst h'
        exact processLinks_not_ignored ign _ none es heq2 ed hm
  · exact Except.noConfusion h

/-- Counterexample for C1 as stated: in `exDoc1` the Link references the
`device:`-typed node `d`, which is excluded from the node mapping, yet
both edges keep `d` as an endpoint, so the edge-endpoints-in-node-mapping
invariant is false on a successfully built graph. -/
theorem C1_counterexample :
    (build [] exDoc1).map edgeEndpointsPresent = Except.ok false := by decide

/-- Witness for C1 (amended) at `exDoc1` and its first edge. -/
theorem C1_amended_witness :
    ([] : List String).contains "0" = false ∧
      ([] : List String).contains "d" = false :=
  C1_amended [] exDoc1
    ⟨[("0", defaultAttrs "0")],
     [⟨"0", "d", 2, '2', "1"⟩, ⟨"d", "0", 3, '2', "1"⟩]⟩
    (by decide) ⟨"0", "d", 2, '2', "1"⟩ (by decide)

lemma resolveDelay_of_some (d : String) (e : Elem) :
    ∃ x, resolveDelay (some d) e = Except.ok x := by
  cases hd : getAttr e "Delays" with
  | none => exact ⟨d, by simp [resolveDelay, hd]⟩
  | some d2 => exact ⟨stripClk d2, by simp [resolveDelay, hd]⟩

lemma edgeNum_of_bind {e : Elem} {n : Nat}
    (h : (getAttr e "Link").bind linkNum = some n) :
    edgeNum e = Except.ok n := by
  unfold edgeNum
  cases hlb : getAttr e "Link" with
  | none => rw [hlb] at h; simp [Option.bind] at h
  | some lb =>
    rw [hlb] at h
    simp only [Option.some_bind] at h
    simp [h]

/-- Claim C4 (amended): for a Link that passes the Flags/direction filters
and the ignored-endpoint check, whose attributes are otherwise well formed
(encoding resolves, a link-level Delays is declared, every endpoint has a
NodeId, and the first two endpoints carry resolvable Link labels), the
extractor fails with MissingEndpoints if and only if the Link has FEWER
than two LinkEndpoint children.  A Link with three or more endpoints is
not an error: the first two are processed and the extras ignored (see the
counterexample). -/
theorem C4_amended (ign : List String) (st : Option String) (l : Elem)
    (ds : String) (enc : Char) (ids : List String)
    (hflag : linkFlagged l = false)
    (hdir : getAttr l "direction" = none)
    (henc : encodingOf l = Except.ok enc)
    (hdel : getAttr l "Delays" = some ds)
    (hids : endIds (linkEnds l) = some ids)
    (hign : ids.any (fun i => ign.contains i) = false)
    (hlbl : ((linkEnds l).take 2).all
      (fun e => ((getAttr e "Link").bind linkNum).isSome) = true) :
    stepLink ign st l = Except.error XNErr.missingEndpoints ↔
      (linkEnds l).length < 2 := by
  have hst2 : linkDelays st l = some (stripClk ds) := by
    unfold linkDelays
    rw [hdel]
  cases hEnds : linkEnds l with
  | nil =>
    rw [hEnds] at hids
    have hidsnil : ids = [] := by
      unfold endIds at hids
      injection hids with h2
      exact h2.symm
    subst hidsnil
    simp only [stepLink, hflag, Bool.false_eq_true, if_false, hdir,
      Option.isSome_none, henc, hEnds, endIds, List.any_nil,
      List.getElem?_nil, List.length_nil]
    exact iff_of_true (by trivial) (by omega)
  | cons e0 tl =>
    rw [hEnds] at hids
    unfold endIds at hids
    split at hids
    case _ i0 js hni0 hjs =>
      injection hids with hids2
      subst hids2
      simp only [List.any_cons, Bool.or_eq_false_iff] at hign
      obtain ⟨hc0, hjsany⟩ := hign
      cases tl with
      | nil =>
        have hjsnil : js = [] := by
          unfold endIds at hjs
          injection hjs with h2
          exact h2.symm
        subst hjsnil
        obtain ⟨d0, hd0⟩ := resolveDelay_of_some (stripClk ds) e0
        simp only [stepLink, hflag, Bool.false_eq_true, if_false, hdir,
          Option.isSome_none, henc, hEnds, endIds, hni0, List.any_cons,
          List.any_nil, hc0, Bool.or_self, Bool.or_false,
          List.getElem?_cons_zero, List.getElem?_cons_succ,
          List.getElem?_nil, hst2, hd0, List.length_cons, List.length_nil]
        exact iff_of_true (by trivial) (by omega)
      | cons e1 tl2 =>
        unfold endIds at hjs
        split at hjs
        case _ i1 js2 hni1 hjs2 =>
          injection hjs with hjs3
          subst hjs3
          simp only [List.any_cons, Bool.or_eq_false_iff] at hjsany
          obtain ⟨hc1, hjs2any⟩ := hjsany
          rw [hEnds] at hlbl
          simp only [List.take_succ_cons, List.take_zero, List.all_cons,
            List.all_nil, Bool.and_eq_true, and_true] at hlbl
          obtain ⟨hb0, hb1⟩ := hlbl
          obtain ⟨n0, hn0⟩ := Option.isSome_iff_exists.mp hb0
          obtain ⟨n1, hn1⟩ := Option.isSome_iff_exists.mp hb1
          have hedge0 := edgeNum_of_bind hn0
          have hedge1 := edgeNum_of_bind hn1
          obtain ⟨d0, hd0⟩ := resolveDelay_of_some (stripClk ds) e0
          obtain ⟨d1, hd1⟩ := resolveDelay_of_some (stripClk ds) e1
          simp only [stepLink, hflag, Bool.false_eq_true, if_false, hdir,
            Option.isSome_none, henc, hEnds, endIds, hni0, hni1, hjs2,
            List.any_cons, hc0, hc1, hjs2any, Bool.or_self, Bool.false_or,
            Bool.or_false, List.getElem?_cons_zero, List.getElem?_cons_succ,
            hst2, hd0, hd1, hedge0, hedge1, List.length_cons]
          exact iff_of_false (by simp) (by omega)
        case _ =>
          exact Option.noConfusion hjs
    case _ =>
      exact Option.noConfusion hids

/-- Counterexample for C4 as stated: `exLink3` has three LinkEndpoint
children, passes all filters, and is processed without error (its first
two endpoints are materialized, the third silently ignored), while the
claim requires a MissingEndpoints failure for any count other than two. -/
theorem C4_counterexample :
    (linkEnds exLink3).length = 3 ∧
    stepLink [] none exLink3 = Except.ok
      ([⟨"a", "b", 2, '2', "2"⟩, ⟨"b", "a", 3, '2', "2"⟩], some "2") :=
  ⟨by decide, by decide⟩

/-- Witness for C4 (amended) at a one-endpoint Link. -/
theorem C4_amended_witness :
    stepLink [] none exLink1e = Except.error XNErr.missingEndpoints :=
  (C4_amended [] none exLink1e "4clk" '2' ["9"] (by decide) (by decide)
    (by decide) (by decide) (by decide) (by decide) (by decide)).mpr
    (by decide)

lemma processNode_ok_some {ign : List String} {e : Elem} {i : String}
    {a : NodeAttrs} (hok : processNode ign e = Except.ok (some (i, a))) :
    getAttr e "Id" = some i ∧ ign.contains i = false ∧
    freqOf e "Oscillator" oscDefault = Except.ok a.Oscillator ∧
    freqOf e "SystemFrequency" sysDefault = Except.ok a.SystemFrequency ∧
    freqOf e "ReferenceFrequency" referenceDefault =
      Except.ok a.ReferenceFrequency ∧
    (∃ r0, refSeed e i = Except.ok r0 ∧ nodeRef i r0 e = Except.ok a.ref) ∧
    a.RoutingId = getAttr e "RoutingId" ∧
    a.p = (match getAttr e "Type" with
           | some t => typeIsPeriph t
           | none => false) := by
  unfold processNode at hok
  split at hok
  · exact Except.noConfusion hok
  · rename_i i' hid
    split at hok
    · injection hok with h'
      exact Option.noConfusion h'
    · rename_i hcont
      split at hok
      · injection hok with h'
        exact Option.noConfusion h'
      · split at hok
        · exact Except.noConfusion hok
        · rename_i osc hosc
          split at hok
          · exact Except.noConfusion hok
          · rename_i sys hsys
            split at hok
            · exact Except.noConfusion hok
            · rename_i rfq hrfq
              split at hok
              · exact Except.noConfusion hok
              · rename_i r0 hr0
                split at hok
                · exact Except.noConfusion hok
                · rename_i rv hrv
                  injection hok with h'
                  injection h' with h''
                  injection h'' with hi ha
                  subst hi
                  subst ha
                  rw [Bool.not_eq_true] at hcont
                  exact ⟨hid, hcont, hosc, hsys, hrfq, ⟨r0, hr0, hrv⟩,
                    rfl, rfl⟩

lemma processNodes_mem_of_ok (ign : List String) :
    ∀ (es : List Elem) (ns : List (String × NodeAttrs)),
      processNodes ign es = Except.ok ns →
      ∀ e ∈ es, ∃ r, processNode ign e = Except.ok r ∧
        ∀ pr, r = some pr → pr ∈ ns := by
  intro es
  induction es with
  | nil => intro ns h e he; cases he
  | cons f fs ih =>
    intro ns h e he
    unfold processNodes at h
    split at h
    · exact Except.noConfusion h
    · rename_i heq
      cases he with
      | head => exact ⟨none, heq, fun pr hpr => Option.noConfusion hpr⟩
      | tail _ hmem => exact ih ns h e hmem
    · rename_i pr0 heq
      split at h
      · exact Except.noConfusion h
      · rename_i rest heq2
        injection h with h'
        subst h'
        cases he with
        | head =>
          refine ⟨some pr0, heq, fun pr hpr => ?_⟩
          injection hpr with h2
          subst h2
          exact List.mem_cons_self _ _
        | tail _ hmem =>
          obtain ⟨r, hr1, hr2⟩ := ih rest heq2 e hmem
          exact ⟨r, hr1, fun pr hpr => List.mem_cons_of_mem _ (hr2 pr hpr)⟩

lemma processNode_no_type {ign : List String} {e : Elem} {i : String}
    {r : Option (String × NodeAttrs)}
    (hid : getAttr e "Id" = some i)
    (htype : getAttr e "Type" = none)
    (hign : ign.contains i = false)
    (h : processNode ign e = Except.ok r) :
    ∃ a, r = some (i, a) ∧ a.p = false := by
  simp only [processNode, hid, hign, htype, Bool.false_eq_true, if_false] at h
  split at h
  · rename_i hdev
    exact Option.noConfusion hdev
  · split at h
    · exact Except.noConfusion h
    · split at h
      · exact Except.noConfusion h
      · split at h
        · exact Except.noConfusion h
        · split at h
          · exact Except.noConfusion h
          · split at h
            · exact Except.noConfusion h
            · injection h with h'
              exact ⟨_, h'.symm, rfl⟩

/-- Claim C10: a Node element that declares no Type attribute at all (and
whose id is not excluded) is entered into the node mapping, and the entry
it contributes has the peripheral flag false: absence of a type means a
compute node, neither a device (which would be dropped) nor a
peripheral. -/
theorem C10_no_type_is_compute (ign : List String) (root : Elem) (g : Graph)
    (e : Elem) (i : String)
    (hbuild : build ign root = Except.ok g)
    (hmem : e ∈ iterTag (nsTag "Node") root)
    (hid : getAttr e "Id" = some i)
    (htype : getAttr e "Type" = none)
    (hign : ign.contains i = false) :
    ∃ a, (i, a) ∈ g.nodes ∧ a.p = false := by
  unfold build at hbuild
  split at hbuild
  · split at hbuild
    · exact Except.noConfusion hbuild
    · rename_i ns hns
      split at hbuild
      · exact Except.noConfusion hbuild
      · rename_i es hes
        injection hbuild with h'
        subst h'
        obtain ⟨r, hr, hin⟩ := processNodes_mem_of_ok ign _ ns hns e hmem
        obtain ⟨a, hra, hap⟩ := processNode_no_type hid htype hign hr
        exact ⟨a, hin (i, a) hra, hap⟩
  · exact Except.noConfusion hbuild

/-- Witness for C10 at a document with a single untyped Node `n`. -/
theorem C10_no_type_is_compute_witness :
    ∃ a, ("n", a) ∈ (Graph.mk [("n", defaultAttrs "n")] []).nodes ∧
      a.p = false :=
  C10_no_type_is_compute [] exDoc10 ⟨[("n", defaultAttrs "n")], []⟩
    (el "Node" [("Id", "n")] []) "n" (by decide) (by decide) (by decide)
    (by decide) (by decide)

/-- Claim C5 (amended): with a `ref` attribute absent (the reader would
funnel one through FreqConv), a qualifying Node's `ref` value is the
bracketed integer from the first Core descendant's reference when at
least one Core exists, but with no Core it remains the node's id as the
seeded STRING: the id is never converted to an integer (see the
counterexample for id `5`). -/
theorem C5_amended (ign : List String) (e : Elem) (i : String) (a : NodeAttrs)
    (href : getAttr e "ref" = none)
    (hok : processNode ign e = Except.ok (some (i, a))) :
    ((iterTag (nsTag "Core") e).head? = none → a.ref = RefVal.str i) ∧
    (∀ c k, (iterTag (nsTag "Core") e).head? = some c →
      bracketInt (coreRefString i c) = some k → a.ref = RefVal.int k) := by
  obtain ⟨-, -, -, -, -, ⟨r0, hr0, hrv⟩, -, -⟩ := processNode_ok_some hok
  have hr0v : RefVal.str i = r0 := by
    simp only [refSeed, href] at hr0
    injection hr0
  subst hr0v
  constructor
  · intro hcore
    simp only [nodeRef, hcore] at hrv
    injection hrv with h'
    exact h'.symm
  · intro c k hcore hbr
    simp only [nodeRef, hcore, hbr] at hrv
    injection hrv with h'
    exact h'.symm

/-- Counterexample for C5 as stated: the Node with id `5` and no Core
children is stored with `ref` equal to the id STRING `"5"` (the seeded
value at line 93 is `Node.attrib['Id']`, never passed through `int`),
which is not the integer tile reference 5 the claim requires. -/
theorem C5_counterexample :
    build [] exDoc5b = Except.ok ⟨[("5", defaultAttrs "5")], []⟩ ∧
    (defaultAttrs "5").ref = RefVal.str "5" ∧
    RefVal.str "5" ≠ RefVal.int 5 :=
  ⟨by decide, by decide, by decide⟩

/-- Witness for C5 (amended): the no-Core node `5` keeps its id string;
the node `7` with Core reference `tile[2]` gets the integer 2. -/
theorem C5_amended_witness :
    (defaultAttrs "5").ref = RefVal.str "5" ∧
    ({ defaultAttrs "7" with ref := RefVal.int 2 } : NodeAttrs).ref =
      RefVal.int 2 :=
  ⟨(C5_amended [] (el "Node" [("Id", "5")] []) "5" (defaultAttrs "5")
      (by decide) (by decide)).1 (by decide),
   (C5_amended [] exNodeCore "7"
      { defaultAttrs "7" with ref := RefVal.int 2 } (by decide)
      (by decide)).2 (el "Core" [("Reference", "tile[2]")] []) 2 (by decide)
      (by decide)⟩

lemma freqConvL_nonneg (cs : List Char) (q : ℚ)
    (h : freqConvL cs = some q) : 0 ≤ q := by
  simp only [freqConvL] at h
  split at h
  · exact Option.noConfusion h
  · split at h
    · exact Option.noConfusion h
    · injection h with h'
      rw [← h']
      exact Rat.mkRat_nonneg (Int.ofNat_nonneg _) _

lemma freqOf_nonneg {e : Elem} {k : String} {dflt : ℚ} (hd : 0 ≤ dflt)
    {q : ℚ} (h : freqOf e k dflt = Except.ok q) : 0 ≤ q := by
  unfold freqOf at h
  split at h
  · injection h with h'
    rw [← h']
    exact hd
  · split at h
    · exact Except.noConfusion h
    · rename_i q' hq
      injection h with h'
      rw [← h']
      exact freqConvL_nonneg _ _ hq

lemma processNode_freqs_nonneg {ign : List String} {e : Elem} {i : String}
    {a : NodeAttrs} (h : processNode ign e = Except.ok (some (i, a))) :
    0 ≤ a.Oscillator ∧ 0 ≤ a.SystemFrequency ∧ 0 ≤ a.ReferenceFrequency := by
  obtain ⟨-, -, hosc, hsys, hrfq, -, -, -⟩ := processNode_ok_some h
  exact ⟨freqOf_nonneg (Rat.mkRat_nonneg (by decide) 1) hosc,
    freqOf_nonneg (Rat.mkRat_nonneg (by decide) 1) hsys,
    freqOf_nonneg (Rat.mkRat_nonneg (by decide) 1) hrfq⟩

lemma processNodes_freqs_nonneg (ign : List String) :
    ∀ (es : List Elem) (ns : List (String × NodeAttrs)),
      processNodes ign es = Except.ok ns →
      ∀ pr ∈ ns, 0 ≤ pr.2.Oscillator ∧ 0 ≤ pr.2.SystemFrequency ∧
        0 ≤ pr.2.ReferenceFrequency := by
  intro es
  induction es with
  | nil =>
    intro ns h pr hm
    unfold processNodes at h
    injection h with h'
    subst h'
    cases hm
  | cons f fs ih =>
    intro ns h pr hm
    unfold processNodes at h
    split at h
    · exact Except.noConfusion h
    · exact ih ns h pr hm
    · rename_i pr0 heq
      split at h
      · exact Except.noConfusion h
      · rename_i rest heq2
        injection h with h'
        subst h'
        cases hm with
        | head => exact processNode_freqs_nonneg heq
        | tail _ hm2 => exact ih rest heq2 pr hm2

/-- Claim C9 (amended): in every successfully built graph, every Node's
three frequency values are NONNEGATIVE rationals; the defaults are the
positive values 20e6 / 400e6 / 100e6, but a declared frequency attribute
may legally evaluate to zero (e.g. `Oscillator="0"`), so positivity as
claimed fails (see the counterexample).  Finiteness is inherent in this
exact-rational idealization. -/
theorem C9_amended (ign : List String) (root : Elem) (g : Graph)
    (h : build ign root = Except.ok g) :
    ∀ pr ∈ g.nodes, 0 ≤ pr.2.Oscillator ∧ 0 ≤ pr.2.SystemFrequency ∧
      0 ≤ pr.2.ReferenceFrequency := by
  intro pr hm
  unfold build at h
  split at h
  · split at h
    · exact Except.noConfusion h
    · rename_i ns hns
      split at h
      · exact Except.noConfusion h
      · rename_i es hes
        injection h with h'
        subst h'
        exact processNodes_freqs_nonneg ign _ ns hns pr hm
  · exact Except.noConfusion h

/-- Counterexample for C9 as stated: the Node declaring `Oscillator="0"`
is accepted and stored with oscillator frequency 0, which is not
positive. -/
theorem C9_counterexample :
    (build [] exDoc9).map freqsPositive = Except.ok false := by decide

/-- Witness for C9 (amended) at `exDoc5b`. -/
theorem C9_amended_witness :
    0 ≤ (defaultAttrs "5").Oscillator ∧
    0 ≤ (defaultAttrs "5").SystemFrequency ∧
    0 ≤ (defaultAttrs "5").ReferenceFrequency :=
  C9_amended [] exDoc5b ⟨[("5", defaultAttrs "5")], []⟩ (by decide)
    ("5", defaultAttrs "5") (by decide)
